import Mathlib

/-!
Verification development for the WolfVue repository.

The file shallowly embeds the decision-relevant parts of
`src/WolfVue_Frontend_Testing.py`, `src/tools/Multi_Directory_Analysis.py` and
`src/tools/AnnotationTool.py`.  Confidences (Python floats used only through
order comparisons and affine maps) are modelled as rationals; Python
`defaultdict(int)` tables keyed by species name are modelled as
insertion-ordered association lists.  Components of the specification whose
implementation is absent from the source (the video aggregation state machine
of spec section 4.2 and the single-image rules of section 4.3 — the source only
simulates processing) are modelled from the specification text and are marked
as such in their doc comments.
-/

namespace WolfVue

attribute [local semireducible] Rat.mul Rat.add Rat.sub Nat.gcd Rat.inv

/-- A detection box as consumed by `analyze_file_with_yolo` in
`tools/Multi_Directory_Analysis.py`: `conf = box.conf[0].item()` and
`cls = int(box.cls[0].item())`. -/
structure Det where
  conf : ℚ
  cls : ℕ
deriving DecidableEq, Repr

/-- Incrementing one key of a Python `defaultdict(int)` by one
(`species_counts[species_name] += 1`), modelled on an insertion-ordered
association list. -/
def bump : List (String × ℕ) → String → List (String × ℕ)
  | [], s => [(s, 1)]
  | (k, v) :: rest, s =>
      if k = s then (k, v + 1) :: rest else (k, v) :: bump rest s

/-- Adding `n` to one key of a `defaultdict(int)`
(`species_counts[species] += count` in `analyze_directory`). -/
def bumpBy : List (String × ℕ) → String → ℕ → List (String × ℕ)
  | [], s, n => [(s, n)]
  | (k, v) :: rest, s, n =>
      if k = s then (k, v + n) :: rest else (k, v) :: bumpBy rest s n

/-- Sum of all counts in a species table. -/
def totalCount (l : List (String × ℕ)) : ℕ :=
  (l.map Prod.snd).sum

/-- Module-level constant `CONFIDENCE_THRESHOLD = 0.40` of
`tools/Multi_Directory_Analysis.py` (minimum confidence for video frames). -/
def CONFIDENCE_THRESHOLD : ℚ := 2/5

/-- Module-level constant `IMAGE_CONFIDENCE_THRESHOLD = 0.65` of
`tools/Multi_Directory_Analysis.py` (minimum confidence for still images). -/
def IMAGE_CONFIDENCE_THRESHOLD : ℚ := 13/20

/-- The accepted detections of one frame: the sublist of detections whose
confidence meets or exceeds the threshold (`if conf >= THRESHOLD` in
`analyze_file_with_yolo`; rejected detections are absent, not kept with a
low score). -/
def acceptedDets (t : ℚ) (dets : List Det) : List Det :=
  dets.filter (fun d => t ≤ d.conf)

/-- The inner box loop of `analyze_file_with_yolo` for one frame: for each
box, if `conf >= t` then `species_counts[class_names[cls_id]] += 1`. -/
def countFrame (classNames : ℕ → String) (t : ℚ) (dets : List Det)
    (acc : List (String × ℕ)) : List (String × ℕ) :=
  dets.foldl (fun a d => if t ≤ d.conf then bump a (classNames d.cls) else a) acc

/-- The image branch of `analyze_file_with_yolo`: one detector call whose
outcome may be an exception (`Except.error`, caught by the enclosing
`try`/`except`, which returns the counts accumulated so far — the empty
table).  An unreadable image (`cv2.imread` returning `None`) likewise yields
the empty table. -/
def analyzeImage (classNames : ℕ → String) (outcome : Except Unit (List Det)) :
    List (String × ℕ) :=
  match outcome with
  | Except.error _ => []
  | Except.ok dets => countFrame classNames IMAGE_CONFIDENCE_THRESHOLD dets []

/-- The video branch of `analyze_file_with_yolo`: `frame_count` is incremented
for every decoded frame and the detector runs only when
`frame_count % 30 == 0`; a detector exception at a sampled frame is caught by
the enclosing `try`/`except`, which returns the counts accumulated so far. -/
def analyzeVideoLoop (classNames : ℕ → String) (t : ℚ) :
    List (Except Unit (List Det)) → ℕ → List (String × ℕ) → List (String × ℕ)
  | [], _, acc => acc
  | f :: rest, cnt, acc =>
      if (cnt + 1) % 30 = 0 then
        match f with
        | Except.error _ => acc
        | Except.ok dets =>
            analyzeVideoLoop classNames t rest (cnt + 1) (countFrame classNames t dets acc)
      else analyzeVideoLoop classNames t rest (cnt + 1) acc

/-- Whole-video analysis (`frame_count` starts at `0`, counts start empty). -/
def analyzeVideo (classNames : ℕ → String) (t : ℚ)
    (frames : List (Except Unit (List Det))) : List (String × ℕ) :=
  analyzeVideoLoop classNames t frames 0 []

/-- The subsequence of frames whose 1-based index is a multiple of 30 —
exactly the frames `analyze_file_with_yolo` ever hands to the detector. -/
def sampleLoop : List (Except Unit (List Det)) → ℕ → List (Except Unit (List Det))
  | [], _ => []
  | f :: rest, cnt =>
      if (cnt + 1) % 30 = 0 then f :: sampleLoop rest (cnt + 1)
      else sampleLoop rest (cnt + 1)

/-- Folding the detector outcomes of the sampled frames only, stopping at the
first exception (which `analyze_file_with_yolo` catches, returning the counts
accumulated so far). -/
def processSampled (classNames : ℕ → String) (t : ℚ) :
    List (Except Unit (List Det)) → List (String × ℕ) → List (String × ℕ)
  | [], acc => acc
  | Except.error _ :: _, acc => acc
  | Except.ok dets :: rest, acc =>
      processSampled classNames t rest (countFrame classNames t dets acc)

/-- One input file of `analyze_file_with_yolo`: a still image (one detector
outcome) or a video (one detector outcome per decoded frame; only sampled
frames are ever inspected). -/
inductive FileInput
  | image (outcome : Except Unit (List Det))
  | video (frames : List (Except Unit (List Det)))

/-- Function `analyze_file_with_yolo`.  The `try`/`except` around the whole
body means a detector failure never escapes: the function always returns the
species counts accumulated before the failure. -/
def analyzeFileWithYolo (classNames : ℕ → String) : FileInput → List (String × ℕ)
  | FileInput.image o => analyzeImage classNames o
  | FileInput.video frames => analyzeVideo classNames CONFIDENCE_THRESHOLD frames

/-- Merging one file's counts into the running directory totals
(`species_counts[species] += count` in `analyze_directory`). -/
def addCounts (acc : List (String × ℕ)) (file : List (String × ℕ)) :
    List (String × ℕ) :=
  file.foldl (fun a p => bumpBy a p.1 p.2) acc

/-- The per-file loop of `analyze_directory`, before the final
zero-count filter. -/
def analyzeDirectoryRaw (classNames : ℕ → String) (files : List FileInput) :
    List (String × ℕ) :=
  files.foldl (fun acc f => addCounts acc (analyzeFileWithYolo classNames f)) []

/-- Function `analyze_directory`: fold every file's counts, then keep only
strictly positive counts. -/
def analyzeDirectory (classNames : ℕ → String) (files : List FileInput) :
    List (String × ℕ) :=
  (analyzeDirectoryRaw classNames files).filter (fun p => 0 < p.2)

/-- Configuration-level failures of `main`: `load_config` and
`load_yolo_model` both `sys.exit(1)` on any exception, before any file is
touched. -/
inductive ConfigError
  | configLoadFailed
  | modelLoadFailed
deriving DecidableEq, Repr

/-- The batch-orchestration skeleton of `main` in
`tools/Multi_Directory_Analysis.py`: load the configuration (exit on
failure), load the model (exit on failure), then analyze every directory;
no per-file or per-frame failure reaches this level. -/
def mainRun (cfgSrc : Except ConfigError (ℕ → String))
    (mdlSrc : Except ConfigError Unit) (dirs : List (List FileInput)) :
    Except ConfigError (List (List (String × ℕ))) :=
  match cfgSrc with
  | Except.error e => Except.error e
  | Except.ok classNames =>
      match mdlSrc with
      | Except.error e => Except.error e
      | Except.ok _ => Except.ok (dirs.map (analyzeDirectory classNames))

/-- Video filename extensions recognised by `simulate_processing`
(`SUPPORTED_FILE_TYPES['video_extensions']` in
`WolfVue_Frontend_Testing.py`). -/
def videoExtensions : List String :=
  [".mp4", ".avi", ".mov", ".mkv", ".wmv", ".flv", ".webm"]

/-- The check `any(filename.lower().endswith(ext) for ext in
video_extensions)` in `simulate_processing`. -/
def isVideoFile (name : String) : Bool :=
  videoExtensions.any (fun ext => name.toLower.endsWith ext)

/-- The `species_options` list of `simulate_processing`. -/
def speciesOptions : List String :=
  ["Wolf", "Deer", "Bear", "Fox", "Elk", "Moose",
   "Cougar", "Coyote", "No_Animal", "Unsorted"]

/-- The `weights` list of `simulate_processing`. -/
def speciesWeights : List ℚ :=
  [8/100, 25/100, 12/100, 15/100, 18/100, 5/100, 3/100, 8/100, 4/100, 2/100]

/-- Cumulative weights, as `random.choices` computes them internally
(running sums of `weights`). -/
def cumWeights : List ℚ :=
  (speciesWeights.scanl (fun a w => a + w) 0).tail

/-- Selection against cumulative weights: the first option whose cumulative
weight strictly exceeds the draw, as `bisect.bisect_right` does inside
`random.choices`; the final option is the fallback for a draw at or beyond
the last cumulative weight. -/
def weightedPick : List (String × ℚ) → ℚ → String
  | [], _ => "Unsorted"
  | (s, c) :: rest, u => if u < c then s else weightedPick rest u

/-- The call `random.choices(species_options, weights=weights)[0]` in
`simulate_processing`, with `u` the underlying unit-interval draw. -/
def weightedChoice (u : ℚ) : String :=
  weightedPick (speciesOptions.zip cumWeights) u

/-- One entry of the `results` list built by `simulate_processing` (the
wall-clock `timestamp` field is omitted from the model). -/
structure SimResult where
  filename : String
  classification : String
  confidence : ℚ
  processing_time : ℚ
  file_type : String
deriving DecidableEq, Repr

/-- One iteration body of `simulate_processing` for file `name`:
`processing_time = random.uniform(2.5, 8.2)` (video) or
`random.uniform(0.5, 2.1)` (image), then the weighted classification draw,
then the confidence draw from the band chosen by the classification.
`random.uniform a b` is modelled as `a + (b - a) * u` for a unit-interval
draw `u`; the three unit draws of the iteration are `uTime`, `uClass`,
`uConf` in consumption order. -/
def simulateFile (name : String) (uTime uClass uConf : ℚ) : SimResult :=
  let isVid := isVideoFile name
  let ptime := if isVid then 5/2 + (41/5 - 5/2) * uTime
               else 1/2 + (21/10 - 1/2) * uTime
  let cls := weightedChoice uClass
  let conf :=
    if cls = "No_Animal" then 1/10 + (2/5 - 1/10) * uConf
    else if cls = "Unsorted" then 7/20 + (13/20 - 7/20) * uConf
    else 13/20 + (19/20 - 13/20) * uConf
  { filename := name, classification := cls, confidence := conf,
    processing_time := ptime,
    file_type := if isVid then "video" else "image" }

/-- Whether the worker's `is_cancelled` flag reads true at the top of loop
iteration `i`: `cancelAt = some k` means the flag was set (by `cancel()` on
the caller's thread) before the check of iteration `k`, and a set flag stays
set. -/
def cancelObserved (cancelAt : Option ℕ) (i : ℕ) : Bool :=
  match cancelAt with
  | none => false
  | some k => decide (k ≤ i)

/-- The per-file loop of `simulate_processing`.  The pair returned is
(the `results` accumulated and emitted one-by-one via `file_processed`,
the argument of the final `processing_complete` emission — `none` when the
loop body hit `if self.is_cancelled: return`, which skips that emission).
`u n` is the n-th unit-interval draw of the run; iteration `i` consumes
draws `3*i`, `3*i+1`, `3*i+2`. -/
def simulateLoop (u : ℕ → ℚ) (cancelAt : Option ℕ) :
    List String → ℕ → List SimResult → List SimResult × Option (List SimResult)
  | [], _, acc => (acc, some acc)
  | name :: rest, i, acc =>
      if cancelObserved cancelAt i then (acc, none)
      else
        simulateLoop u cancelAt rest (i + 1)
          (acc ++ [simulateFile name (u (3 * i)) (u (3 * i + 1)) (u (3 * i + 2))])

/-- Method `ProcessingWorker.simulate_processing`, reduced to its per-file
loop over an already-discovered file list. -/
def simulateProcessing (u : ℕ → ℚ) (cancelAt : Option ℕ) (files : List String) :
    List SimResult × Option (List SimResult) :=
  simulateLoop u cancelAt files 0 []

/-- Method `ProcessingWorker.process_with_yolo`: the body falls back to
`simulate_processing` unconditionally ("For now, fall back to simulation"). -/
def processWithYolo : (ℕ → ℚ) → Option ℕ → List String →
    List SimResult × Option (List SimResult) :=
  simulateProcessing

/-- The result list an uncancelled run produces for `files`, when the loop
counter starts at `i`. -/
def expectedRun (u : ℕ → ℚ) : List String → ℕ → List SimResult
  | [], _ => []
  | name :: rest, i =>
      simulateFile name (u (3 * i)) (u (3 * i + 1)) (u (3 * i + 2)) ::
        expectedRun u rest (i + 1)

/-- Which spinbox's `valueChanged` signal triggered
`AdvancedSettingsDialog.validate_unsorted_range` (its `self.sender()`). -/
inductive SpinSender
  | minSpin
  | maxSpin
deriving DecidableEq, Repr

/-- Clamping behaviour of `QDoubleSpinBox.setValue` for a spinbox whose
range is `[lo, hi]`. -/
def spinClamp (lo hi v : ℚ) : ℚ := max lo (min hi v)

/-- The failure value the specification's `ThresholdPolicy.validate`
contract would return.  The source never constructs it: no validation path
in `WolfVue_Frontend_Testing.py` fails. -/
inductive InvalidPolicy
  | invalid
deriving DecidableEq, Repr

/-- Method `AdvancedSettingsDialog.validate_unsorted_range`, acting on the
values of the two unsorted-band spinboxes (both with range `[0, 1]` and
step `0.05`): when `min >= max` it silently adjusts the other spinbox by
`0.05` (clamped by `setValue` to the spinbox range) and always completes
normally — the `Except` layer records that no `InvalidPolicy` failure is
ever produced. -/
def validate_unsorted_range (mn mx : ℚ) (sender : SpinSender) :
    Except InvalidPolicy (ℚ × ℚ) :=
  if mx ≤ mn then
    match sender with
    | SpinSender.minSpin => Except.ok (mn, spinClamp 0 1 (mn + 1/20))
    | SpinSender.maxSpin => Except.ok (spinClamp 0 1 (mx - 1/20), mx)
  else Except.ok (mn, mx)

/-- Association-list lookup in the modelled filesystem (path to file
content). -/
def fsLookup : List (String × ℕ) → String → Option ℕ
  | [], _ => none
  | (p, c) :: rest, q => if p = q then some c else fsLookup rest q

/-- Removing a path from the modelled filesystem. -/
def fsRemove : List (String × ℕ) → String → List (String × ℕ)
  | [], _ => []
  | (p, c) :: rest, q => if p = q then fsRemove rest q else (p, c) :: fsRemove rest q

/-- Binding a path to a content, replacing any existing binding. -/
def fsSet (fs : List (String × ℕ)) (p : String) (c : ℕ) : List (String × ℕ) :=
  (p, c) :: fsRemove fs p

/-- POSIX semantics of `Path.rename(target)` as used by
`TrailCamProcessor.move_annotated_files` in `tools/AnnotationTool.py`: fails
only when the source is missing; an existing target is replaced silently and
unconditionally.  The code performs no destination-existence check before
calling it. -/
def pathRename (fs : List (String × ℕ)) (src dst : String) :
    Except Unit (List (String × ℕ)) :=
  match fsLookup fs src with
  | none => Except.error ()
  | some c => Except.ok (fsSet (fsRemove fs src) dst c)

/-- Result of one iteration of the move loop in `move_annotated_files`:
the filesystem afterwards and the updated `moved_count`. -/
structure MoveOutcome where
  fs : List (String × ℕ)
  movedCount : ℕ
deriving DecidableEq, Repr

/-- One iteration of the move loop of `move_annotated_files` for a label
file with an existing corresponding image: rename the image, then rename
the label, then `moved_count += 1`; any exception is caught, printed and the
loop continues with whatever renames already happened. -/
def moveAnnotatedPair (fs : List (String × ℕ)) (imgSrc imgDst lblSrc lblDst : String)
    (moved : ℕ) : MoveOutcome :=
  match pathRename fs imgSrc imgDst with
  | Except.error _ => ⟨fs, moved⟩
  | Except.ok fs1 =>
      match pathRename fs1 lblSrc lblDst with
      | Except.error _ => ⟨fs1, moved⟩
      | Except.ok fs2 => ⟨fs2, moved + 1⟩

/-- Modelled from the spec: a detection record of the specification's data
model (section 3) — the aggregation/classification code it feeds is absent
from the source, which only simulates processing. -/
structure Detection where
  species_id : ℕ
  species_name : String
  conf : ℚ
deriving DecidableEq, Repr

/-- Modelled from the spec: the `ClassificationLabel` tagged variant of
section 3. -/
inductive ClassificationLabel
  | species (name : String)
  | unsorted
  | noAnimal
deriving DecidableEq, Repr

/-- Modelled from the spec: the label-and-confidence core of
`ClassificationResult` (section 3). -/
structure ClassificationResult where
  label : ClassificationLabel
  confidence : ℚ
deriving DecidableEq, Repr

/-- Modelled from the spec: the image-classification knobs of
`ThresholdPolicy` (sections 3 and 4.3); the mirror fields exist in the
source's `ProcessingSettings` dataclass but nothing in the source consumes
them. -/
structure ImagePolicy where
  image_min_detections : ℕ
  image_multi_species_threshold : ℚ
  image_unsorted_min_confidence : ℚ
  image_unsorted_max_confidence : ℚ
deriving DecidableEq, Repr

/-- Modelled from the spec: the detection of a frame with the highest
confidence, keeping the earlier one on ties (Python's `max`), used by the
image rules of section 4.3. -/
def topDet : List Detection → Option Detection
  | [] => none
  | d :: rest =>
      match topDet rest with
      | none => some d
      | some t => if d.conf < t.conf then some t else some d

/-- Modelled from the spec: the highest-confidence detection of a species
different from the top detection's (step 2 of section 4.3). -/
def secondDet (dets : List Detection) (top : Detection) : Option Detection :=
  topDet (dets.filter (fun d => d.species_name ≠ top.species_name))

/-- Modelled from the spec: the single-frame Image Classifier of section
4.3, applied to the already-filtered accepted detections of one image. -/
def classifyImage (P : ImagePolicy) (dets : List Detection) : ClassificationResult :=
  match topDet dets with
  | none => ⟨ClassificationLabel.noAnimal, 0⟩
  | some top =>
      if dets.length < P.image_min_detections then
        ⟨ClassificationLabel.noAnimal, top.conf⟩
      else
        let band :=
          if P.image_unsorted_min_confidence ≤ top.conf ∧
              top.conf ≤ P.image_unsorted_max_confidence then
            ⟨ClassificationLabel.unsorted, top.conf⟩
          else ⟨ClassificationLabel.species top.species_name, top.conf⟩
        match secondDet dets top with
        | some second =>
            if top.conf - second.conf < P.image_multi_species_threshold then
              ⟨ClassificationLabel.unsorted, top.conf⟩
            else band
        | none => band

/-- Modelled from the spec: the video-aggregation knobs of `ThresholdPolicy`
(sections 3 and 4.2); the mirror fields exist in the source's
`ProcessingSettings` dataclass but nothing in the source consumes them. -/
structure VideoPolicy where
  dominant_species_threshold : ℚ
  max_species_transitions : ℕ
  consecutive_empty_frames : ℕ
deriving DecidableEq, Repr

/-- Modelled from the spec: the per-frame folding state of the Video
Aggregator (section 4.2). -/
structure AggState where
  counts : List (String × ℕ)
  prev : Option String
  transitions : ℕ
  emptyRun : ℕ
  sawEmptyRun : Bool
deriving DecidableEq, Repr

/-- Modelled from the spec: the accepted detection with the highest
confidence in a frame, ties broken by the lowest `species_id` (step 1 of
section 4.2). -/
def leadingDet : List Detection → Option Detection
  | [] => none
  | d :: rest =>
      match leadingDet rest with
      | none => some d
      | some t =>
          if d.conf < t.conf ∨ (d.conf = t.conf ∧ t.species_id < d.species_id) then
            some t
          else some d

/-- Modelled from the spec: the initial folding state. -/
def initAggState : AggState := ⟨[], none, 0, 0, false⟩

/-- Modelled from the spec: one folding step of section 4.2 — an empty frame
extends `consecutive_empty_run` (setting `saw_empty_run` when it reaches the
limit) and changes nothing else; a non-empty frame resets the empty run,
counts its leading species, and counts a transition when the leading species
differs from the previous non-empty frame's. -/
def stepFrame (P : VideoPolicy) (s : AggState) (frame : List Detection) : AggState :=
  match leadingDet frame with
  | none =>
      let r := s.emptyRun + 1
      { s with emptyRun := r,
               sawEmptyRun := s.sawEmptyRun || decide (P.consecutive_empty_frames ≤ r) }
  | some lead =>
      { counts := bump s.counts lead.species_name
        prev := some lead.species_name
        transitions := s.transitions +
          (match s.prev with
           | some p => if p ≠ lead.species_name then 1 else 0
           | none => 0)
        emptyRun := 0
        sawEmptyRun := s.sawEmptyRun }

/-- Modelled from the spec: folding a whole video. -/
def foldVideo (P : VideoPolicy) (video : List (List Detection)) : AggState :=
  video.foldl (stepFrame P) initAggState

/-- Modelled from the spec: the species frame counts accumulated over a
video. -/
def videoCounts (P : VideoPolicy) (video : List (List Detection)) :
    List (String × ℕ) :=
  (foldVideo P video).counts

/-- Modelled from the spec: the transitions counted over a video. -/
def videoTransitions (P : VideoPolicy) (video : List (List Detection)) : ℕ :=
  (foldVideo P video).transitions

/-- Modelled from the spec: the entry of a species table with the maximal
count, keeping the earlier entry on ties (the `argmax` of section 4.2). -/
def topSpecies : List (String × ℕ) → Option (String × ℕ)
  | [] => none
  | (s, c) :: rest =>
      match topSpecies rest with
      | none => some (s, c)
      | some (s', c') => if c < c' then some (s', c') else some (s, c)

/-- Modelled from the spec: `top_share = species_frame_counts[top] /
total_nonempty` (section 4.2), `0` when no frame was ever non-empty. -/
def videoTopShare (P : VideoPolicy) (video : List (List Detection)) : ℚ :=
  match topSpecies (videoCounts P video) with
  | none => 0
  | some (_, c) => (c : ℚ) / (totalCount (videoCounts P video) : ℚ)

/-- Modelled from the spec: the Video Aggregator of section 4.2 — fold the
frames, then apply the final decision once at end of stream. -/
def aggregateVideo (P : VideoPolicy) (video : List (List Detection)) :
    ClassificationResult :=
  let s := foldVideo P video
  match topSpecies s.counts with
  | none => ⟨ClassificationLabel.noAnimal, 0⟩
  | some (top, c) =>
      let share := (c : ℚ) / (totalCount s.counts : ℚ)
      if P.max_species_transitions < s.transitions then
        ⟨ClassificationLabel.unsorted, share⟩
      else if P.dominant_species_threshold ≤ share then
        ⟨ClassificationLabel.species top, share⟩
      else ⟨ClassificationLabel.unsorted, share⟩

theorem bump_ne_nil (l : List (String × ℕ)) (s : String) : bump l s ≠ [] := by
  cases l with
  | nil => simp [bump]
  | cons p rest =>
      obtain ⟨k, v⟩ := p
      by_cases h : k = s <;> simp [bump, h]

theorem totalCount_bump (l : List (String × ℕ)) (s : String) :
    totalCount (bump l s) = totalCount l + 1 := by
  induction l with
  | nil => rfl
  | cons p rest ih =>
      obtain ⟨k, v⟩ := p
      by_cases h : k = s <;>
        simp [bump, h, totalCount, List.map_cons, List.sum_cons] <;>
        simp [totalCount] at ih <;> omega

theorem countFrame_eq_foldl (cn : ℕ → String) (t : ℚ) (dets : List Det) :
    ∀ acc, countFrame cn t dets acc =
      (acceptedDets t dets).foldl (fun a d => bump a (cn d.cls)) acc := by
  induction dets with
  | nil => intro acc; rfl
  | cons d rest ih =>
      intro acc
      by_cases h : t ≤ d.conf
      · have h' : (fun x : Det => decide (t ≤ x.conf)) d = true := by simp [h]
        simp only [countFrame, List.foldl_cons, if_pos h, acceptedDets,
          List.filter_cons, h', if_true]
        exact ih _
      · have h' : (fun x : Det => decide (t ≤ x.conf)) d = false := by simp [h]
        simp only [countFrame, List.foldl_cons, if_neg h, acceptedDets,
          List.filter_cons, h']
        exact ih _

theorem totalCount_countFrame (cn : ℕ → String) (t : ℚ) (dets : List Det) :
    ∀ acc, totalCount (countFrame cn t dets acc) =
      totalCount acc + (acceptedDets t dets).length := by
  induction dets with
  | nil => intro acc; simp [countFrame, acceptedDets]
  | cons d rest ih =>
      intro acc
      by_cases h : t ≤ d.conf
      · have h' : (fun x : Det => decide (t ≤ x.conf)) d = true := by simp [h]
        simp only [countFrame, List.foldl_cons, if_pos h, acceptedDets,
          List.filter_cons, h', if_true, List.length_cons]
        have := ih (bump acc (cn d.cls))
        simp only [countFrame] at this
        rw [this, totalCount_bump]
        simp [acceptedDets]
        omega
      · have h' : (fun x : Det => decide (t ≤ x.conf)) d = false := by simp [h]
        simp only [countFrame, List.foldl_cons, if_neg h, acceptedDets,
          List.filter_cons, h']
        have := ih acc
        simp only [countFrame] at this
        rw [this]
        simp [acceptedDets]

/-- Claim C6, counterexample.  A video whose single sampled frame (the 30th)
holds two accepted detections of different species — a Wolf at confidence
0.9 (the leading detection) and a Deer at 0.8 — yields counts in which the
non-leading Deer detection contributed one as well: the frame incremented the
table twice, not "exactly once for exactly one species". -/
theorem two_detection_frame_double_count :
    analyzeVideo (fun n => if n = 0 then "Wolf" else "Deer") (2/5)
        (List.replicate 29 (Except.ok []) ++ [Except.ok [⟨9/10, 0⟩, ⟨8/10, 1⟩]]) =
      [("Wolf", 1), ("Deer", 1)] ∧
    totalCount [("Wolf", 1), ("Deer", 1)] = 2 ∧
    [("Wolf", 1), ("Deer", 1)] ≠ [("Wolf", 1)] := by
  refine ⟨by decide, by decide, by decide⟩

/-- Claim C6 (amended): in `analyze_file_with_yolo` a processed frame
increments the species table once per accepted detection — each accepted
detection bumps its own species' count, and the frame's total contribution is
the number of accepted detections, with no reduction to a single leading
species. -/
theorem countFrame_one_increment_per_accepted (cn : ℕ → String) (t : ℚ)
    (dets : List Det) (acc : List (String × ℕ)) :
    countFrame cn t dets acc =
      (acceptedDets t dets).foldl (fun a d => bump a (cn d.cls)) acc ∧
    totalCount (countFrame cn t dets acc) =
      totalCount acc + (acceptedDets t dets).length :=
  ⟨countFrame_eq_foldl cn t dets acc, totalCount_countFrame cn t dets acc⟩

/-- Claim C7: a detection is in the accepted set if and only if it is in the
frame and its confidence meets or exceeds the threshold (so a detection
strictly below the threshold is absent, not present with a low score), and
the counts of the image path are computed from exactly the accepted set. -/
theorem accepted_iff_meets_threshold (t : ℚ) (dets : List Det) (d : Det)
    (cn : ℕ → String) :
    (d ∈ acceptedDets t dets ↔ d ∈ dets ∧ t ≤ d.conf) ∧
    analyzeImage cn (Except.ok dets) =
      (acceptedDets IMAGE_CONFIDENCE_THRESHOLD dets).foldl
        (fun a x => bump a (cn x.cls)) [] := by
  constructor
  · simp [acceptedDets, List.mem_filter]
  · exact countFrame_eq_foldl cn IMAGE_CONFIDENCE_THRESHOLD dets []

theorem analyzeVideoLoop_eq_processSampled (cn : ℕ → String) (t : ℚ)
    (frames : List (Except Unit (List Det))) :
    ∀ (cnt : ℕ) (acc : List (String × ℕ)),
    analyzeVideoLoop cn t frames cnt acc =
      processSampled cn t (sampleLoop frames cnt) acc := by
  induction frames with
  | nil => intro cnt acc; rfl
  | cons f rest ih =>
      intro cnt acc
      by_cases h : (cnt + 1) % 30 = 0
      · cases f with
        | error e => simp [analyzeVideoLoop, sampleLoop, processSampled, h]
        | ok dets => simp [analyzeVideoLoop, sampleLoop, processSampled, h, ih]
      · simp [analyzeVideoLoop, sampleLoop, h, ih]

theorem sampleLoop_eq_nil (frames : List (Except Unit (List Det))) :
    ∀ cnt, cnt % 30 + frames.length < 30 → sampleLoop frames cnt = [] := by
  induction frames with
  | nil => intro cnt _; rfl
  | cons f rest ih =>
      intro cnt h
      simp only [List.length_cons] at h
      have h1 : (cnt + 1) % 30 ≠ 0 := by omega
      have h2 : (cnt + 1) % 30 + rest.length < 30 := by omega
      simp [sampleLoop, h1, ih (cnt + 1) h2]

/-- Claim C10: the video branch of `analyze_file_with_yolo` computes its
counts from the frames whose 1-based index is a multiple of 30 and from
nothing else, and a video of fewer than 30 frames yields empty counts. -/
theorem video_counts_only_sampled_frames (cn : ℕ → String) (t : ℚ)
    (frames : List (Except Unit (List Det))) :
    analyzeVideo cn t frames = processSampled cn t (sampleLoop frames 0) [] ∧
    (frames.length < 30 → analyzeVideo cn t frames = []) := by
  constructor
  · exact analyzeVideoLoop_eq_processSampled cn t frames 0 []
  · intro h
    have heq := analyzeVideoLoop_eq_processSampled cn t frames 0 []
    rw [sampleLoop_eq_nil frames 0 (by omega)] at heq
    exact heq

/-- Claim C10, witness: a one-frame video (shorter than 30 frames) with an
accepted detection still yields empty counts. -/
theorem video_counts_only_sampled_frames_witness :
    ([Except.ok [(⟨9/10, 0⟩ : Det)]] : List (Except Unit (List Det))).length < 30 ∧
    analyzeVideo (fun _ => "Wolf") (2/5) [Except.ok [(⟨9/10, 0⟩ : Det)]] = [] :=
  ⟨by decide,
    (video_counts_only_sampled_frames (fun _ => "Wolf") (2/5)
      [Except.ok [(⟨9/10, 0⟩ : Det)]]).2 (by decide)⟩

theorem leadingDet_cons_isSome (d : Detection) (rest : List Detection) :
    ∃ x, leadingDet (d :: rest) = some x := by
  cases hl : leadingDet rest with
  | none => exact ⟨d, by simp [leadingDet, hl]⟩
  | some t =>
      by_cases h : d.conf < t.conf ∨ (d.conf = t.conf ∧ t.species_id < d.species_id)
      · exact ⟨t, by simp [leadingDet, hl, h]⟩
      · exact ⟨d, by simp [leadingDet, hl, h]⟩

theorem stepFrame_counts_ne_nil_of_counts (P : VideoPolicy) (s : AggState)
    (f : List Detection) (h : s.counts ≠ []) : (stepFrame P s f).counts ≠ [] := by
  cases hl : leadingDet f with
  | none => simpa [stepFrame, hl] using h
  | some lead =>
      simp only [stepFrame, hl]
      exact bump_ne_nil _ _

theorem stepFrame_counts_ne_nil_of_frame (P : VideoPolicy) (s : AggState)
    (f : List Detection) (h : f ≠ []) : (stepFrame P s f).counts ≠ [] := by
  cases f with
  | nil => exact absurd rfl h
  | cons d rest =>
      obtain ⟨x, hx⟩ := leadingDet_cons_isSome d rest
      simp only [stepFrame, hx]
      exact bump_ne_nil _ _

theorem foldl_stepFrame_counts_ne_nil (P : VideoPolicy)
    (video : List (List Detection)) :
    ∀ s : AggState, s.counts ≠ [] → (video.foldl (stepFrame P) s).counts ≠ [] := by
  induction video with
  | nil => intro s h; exact h
  | cons v rest ih =>
      intro s h
      exact ih _ (stepFrame_counts_ne_nil_of_counts P s v h)

theorem videoCounts_ne_nil (P : VideoPolicy) (video : List (List Detection))
    (h : ∃ f ∈ video, f ≠ ([] : List Detection)) : videoCounts P video ≠ [] := by
  suffices H : ∀ (vs : List (List Detection)) (s : AggState),
      (∃ f ∈ vs, f ≠ ([] : List Detection)) →
      (vs.foldl (stepFrame P) s).counts ≠ [] from H video initAggState h
  intro vs
  induction vs with
  | nil => intro s hs; simp at hs
  | cons v rest ih =>
      intro s hs
      obtain ⟨f, hf, hne⟩ := hs
      rcases List.mem_cons.mp hf with rfl | hf'
      · exact foldl_stepFrame_counts_ne_nil P rest _
          (stepFrame_counts_ne_nil_of_frame P s f hne)
      · exact ih _ ⟨f, hf', hne⟩

theorem topSpecies_isSome (l : List (String × ℕ)) (h : l ≠ []) :
    ∃ p, topSpecies l = some p := by
  cases l with
  | nil => exact absurd rfl h
  | cons p rest =>
      obtain ⟨s, c⟩ := p
      cases ht : topSpecies rest with
      | none => exact ⟨(s, c), by simp [topSpecies, ht]⟩
      | some q =>
          obtain ⟨s', c'⟩ := q
          by_cases h2 : c < c'
          · exact ⟨(s', c'), by simp [topSpecies, ht, h2]⟩
          · exact ⟨(s, c), by simp [topSpecies, ht, h2]⟩

/-- Claim C1: for every video with at least one non-empty frame, the Video
Aggregator's final label is decided exactly by the spec's rule — `Unsorted`
when the counted transitions exceed `max_species_transitions`, otherwise
`Species(top)` when the top species' share of non-empty frames reaches
`dominant_species_threshold`, otherwise `Unsorted` — and the reported
confidence equals that top share in every one of these cases. -/
theorem video_aggregator_final_decision (P : VideoPolicy)
    (video : List (List Detection))
    (h : ∃ f ∈ video, f ≠ ([] : List Detection)) :
    ∃ p : String × ℕ, topSpecies (videoCounts P video) = some p ∧
      aggregateVideo P video =
        ⟨(if P.max_species_transitions < videoTransitions P video then
            ClassificationLabel.unsorted
          else if P.dominant_species_threshold ≤ videoTopShare P video then
            ClassificationLabel.species p.1
          else ClassificationLabel.unsorted),
          videoTopShare P video⟩ := by
  obtain ⟨p, hp⟩ := topSpecies_isSome _ (videoCounts_ne_nil P video h)
  refine ⟨p, hp, ?_⟩
  obtain ⟨top, c⟩ := p
  have hp' : topSpecies (foldVideo P video).counts = some (top, c) := hp
  simp only [aggregateVideo, videoTopShare, videoTransitions, videoCounts, hp']
  split_ifs <;> rfl

/-- Claim C1, witness: a one-frame video with a single Wolf detection at
confidence 0.9 instantiates the final-decision rule. -/
theorem video_aggregator_final_decision_witness :
    (∃ f ∈ [[(⟨0, "Wolf", 9/10⟩ : Detection)]], f ≠ ([] : List Detection)) ∧
    ∃ p : String × ℕ,
      topSpecies (videoCounts ⟨9/10, 5, 15⟩ [[(⟨0, "Wolf", 9/10⟩ : Detection)]]) =
        some p ∧
      aggregateVideo ⟨9/10, 5, 15⟩ [[(⟨0, "Wolf", 9/10⟩ : Detection)]] =
        ⟨(if (5 : ℕ) <
            videoTransitions ⟨9/10, 5, 15⟩ [[(⟨0, "Wolf", 9/10⟩ : Detection)]] then
            ClassificationLabel.unsorted
          else if (9 : ℚ)/10 ≤
            videoTopShare ⟨9/10, 5, 15⟩ [[(⟨0, "Wolf", 9/10⟩ : Detection)]] then
            ClassificationLabel.species p.1
          else ClassificationLabel.unsorted),
          videoTopShare ⟨9/10, 5, 15⟩ [[(⟨0, "Wolf", 9/10⟩ : Detection)]]⟩ :=
  ⟨⟨[⟨0, "Wolf", 9/10⟩], by simp⟩,
    video_aggregator_final_decision ⟨9/10, 5, 15⟩ [[(⟨0, "Wolf", 9/10⟩ : Detection)]]
      ⟨[⟨0, "Wolf", 9/10⟩], by simp⟩⟩

/-- Claim C5: when an image's accepted detections meet the minimum-count
rule and the frame is not rejected as an ambiguous multi-species frame, a top
confidence inside the closed unsorted band yields the label `Unsorted` with
confidence equal to that top confidence, regardless of the detected
species. -/
theorem image_unsorted_band (P : ImagePolicy) (dets : List Detection)
    (top : Detection) (htop : topDet dets = some top)
    (hcount : P.image_min_detections ≤ dets.length)
    (hsec : secondDet dets top = none ∨
      ∀ s, secondDet dets top = some s →
        P.image_multi_species_threshold ≤ top.conf - s.conf)
    (hlo : P.image_unsorted_min_confidence ≤ top.conf)
    (hhi : top.conf ≤ P.image_unsorted_max_confidence) :
    classifyImage P dets = ⟨ClassificationLabel.unsorted, top.conf⟩ := by
  have hnl : ¬ dets.length < P.image_min_detections := Nat.not_lt.mpr hcount
  cases hs : secondDet dets top with
  | none => simp [classifyImage, htop, hnl, hs, hlo, hhi]
  | some s =>
      have hth : P.image_multi_species_threshold ≤ top.conf - s.conf := by
        rcases hsec with hnone | hall
        · rw [hs] at hnone; exact absurd hnone (by simp)
        · exact hall s hs
      have hno : ¬ top.conf - s.conf < P.image_multi_species_threshold :=
        not_lt.mpr hth
      simp [classifyImage, htop, hnl, hs, hno, hlo, hhi]

/-- Claim C5, witness: the spec's own example — a single detection at
confidence 0.50 with the unsorted band [0.35, 0.65] — classifies as
`Unsorted` at confidence 0.50. -/
theorem image_unsorted_band_witness :
    topDet [(⟨0, "Wolf", 1/2⟩ : Detection)] = some ⟨0, "Wolf", 1/2⟩ ∧
    classifyImage ⟨1, 6/10, 7/20, 13/20⟩ [(⟨0, "Wolf", 1/2⟩ : Detection)] =
      ⟨ClassificationLabel.unsorted, 1/2⟩ :=
  ⟨by decide,
    image_unsorted_band ⟨1, 6/10, 7/20, 13/20⟩ [⟨0, "Wolf", 1/2⟩] ⟨0, "Wolf", 1/2⟩
      (by decide) (by decide) (Or.inl (by decide)) (by decide) (by decide)⟩

/-- Claim C2, counterexample: on the inverted band min = 0.7, max = 0.5
(min ≥ max, which the claim says must fail with `InvalidPolicy`),
`validate_unsorted_range` instead completes normally and silently adjusts
the max spinbox to 0.75 — success with adjusted values, never a failure. -/
theorem validate_unsorted_range_succeeds_on_inverted_band :
    validate_unsorted_range (7/10) (1/2) SpinSender.minSpin =
      Except.ok (7/10, 3/4) ∧
    (∀ e, validate_unsorted_range (7/10) (1/2) SpinSender.minSpin ≠
      Except.error e) ∧
    ((7/10 : ℚ), (3/4 : ℚ)) ≠ ((7/10 : ℚ), (1/2 : ℚ)) := by
  refine ⟨rfl, ?_, by decide⟩
  intro e h
  rw [show validate_unsorted_range (7/10) (1/2) SpinSender.minSpin =
    Except.ok (7/10, 3/4) from rfl] at h
  exact Except.noConfusion h

/-- Claim C2 (amended): the dialog never fails with `InvalidPolicy` — an
inverted unsorted band is silently repaired by `validate_unsorted_range`,
which mutates the other spinbox by 0.05 (clamped by the spinbox range), and
out-of-range values of the other fields are silently clamped by their widget
ranges; validation succeeds with adjusted values instead of failing. -/
theorem validate_unsorted_range_silently_adjusts (mn mx : ℚ)
    (h1 : mx ≤ mn) (h2 : 1/20 ≤ mx) (h3 : mn ≤ 19/20) :
    validate_unsorted_range mn mx SpinSender.minSpin =
      Except.ok (mn, mn + 1/20) ∧
    validate_unsorted_range mn mx SpinSender.maxSpin =
      Except.ok (mx - 1/20, mx) ∧
    mn < mn + 1/20 ∧ mx - 1/20 < mx := by
  have hc1 : spinClamp 0 1 (mn + 1/20) = mn + 1/20 := by
    unfold spinClamp
    rw [min_eq_right (by linarith), max_eq_right (by linarith)]
  have hc2 : spinClamp 0 1 (mx - 1/20) = mx - 1/20 := by
    unfold spinClamp
    rw [min_eq_right (by linarith), max_eq_right (by linarith)]
  refine ⟨?_, ?_, by linarith, by linarith⟩
  · unfold validate_unsorted_range
    rw [if_pos h1]
    show Except.ok (mn, spinClamp 0 1 (mn + 1/20)) = Except.ok (mn, mn + 1/20)
    rw [hc1]
  · unfold validate_unsorted_range
    rw [if_pos h1]
    show Except.ok (spinClamp 0 1 (mx - 1/20), mx) = Except.ok (mx - 1/20, mx)
    rw [hc2]

/-- Claim C2, witness: the silent adjustment instantiated at the inverted
band min = 0.7, max = 0.5. -/
theorem validate_unsorted_range_silently_adjusts_witness :
    (1 : ℚ)/2 ≤ 7/10 ∧
    validate_unsorted_range (7/10) (1/2) SpinSender.minSpin =
      Except.ok (7/10, 7/10 + 1/20) ∧
    validate_unsorted_range (7/10) (1/2) SpinSender.maxSpin =
      Except.ok (1/2 - 1/20, 1/2) :=
  ⟨by norm_num,
    (validate_unsorted_range_silently_adjusts (7/10) (1/2) (by norm_num)
      (by norm_num) (by norm_num)).1,
    (validate_unsorted_range_silently_adjusts (7/10) (1/2) (by norm_num)
      (by norm_num) (by norm_num)).2.1⟩

theorem simulateLoop_cancel (u : ℕ → ℚ) (k : ℕ) :
    ∀ (files : List String) (i : ℕ) (acc : List SimResult),
    i ≤ k → k - i < files.length →
    simulateLoop u (some k) files i acc =
      (acc ++ expectedRun u (files.take (k - i)) i, none) := by
  intro files
  induction files with
  | nil => intro i acc _ h2; simp at h2
  | cons name rest ih =>
      intro i acc h1 h2
      by_cases hk : k ≤ i
      · have hobs : cancelObserved (some k) i = true := by
          simp [cancelObserved, hk]
        have htake : k - i = 0 := by omega
        simp [simulateLoop, hobs, htake, expectedRun]
      · have hobs : cancelObserved (some k) i = false := by
          simp only [cancelObserved, decide_eq_false_iff_not]
          omega
        have h1' : i + 1 ≤ k := by omega
        have h2' : k - (i + 1) < rest.length := by
          simp only [List.length_cons] at h2
          omega
        have hrec := ih (i + 1)
          (acc ++ [simulateFile name (u (3 * i)) (u (3 * i + 1)) (u (3 * i + 2))])
          h1' h2'
        have hki : k - i = (k - (i + 1)) + 1 := by omega
        simp only [simulateLoop, hobs, Bool.false_eq_true, if_false]
        rw [hrec, hki]
        simp [expectedRun, List.take_succ_cons]

/-- Claim C3, counterexample: with two files and the cancellation flag
observed at the start of the second iteration, the first file is fully
processed but `processing_complete` is never emitted — the partial report is
dropped, not returned to the caller. -/
theorem cancel_drops_partial_report :
    (simulateProcessing (fun _ => 0) (some 1) ["a.jpg", "b.jpg"]).2 = none ∧
    (simulateProcessing (fun _ => 0) (some 1) ["a.jpg", "b.jpg"]).1.length = 1 := by
  exact ⟨by decide, by decide⟩

/-- Claim C3 (amended): the cancellation flag is checked only at the start
of each file iteration, so when it is observed before iteration `k` the
emitted per-file results are exactly the results of the first `k` files —
but the worker then returns without emitting `processing_complete`, so the
aggregate partial report is discarded rather than returned (and `cancel()`
additionally calls `terminate()`, which can preempt the in-flight file). -/
theorem cancel_observed_between_files (u : ℕ → ℚ) (files : List String) (k : ℕ)
    (h : k < files.length) :
    simulateProcessing u (some k) files = (expectedRun u (files.take k) 0, none) := by
  have hc := simulateLoop_cancel u k files 0 [] (Nat.zero_le k) (by omega)
  simpa [simulateProcessing] using hc

/-- Claim C3, witness: the amended statement instantiated at a two-file run
cancelled before the second file. -/
theorem cancel_observed_between_files_witness :
    1 < (["a.jpg", "b.jpg"] : List String).length ∧
    simulateProcessing (fun _ => 0) (some 1) ["a.jpg", "b.jpg"] =
      (expectedRun (fun _ => 0) ((["a.jpg", "b.jpg"] : List String).take 1) 0, none) :=
  ⟨by decide,
    cancel_observed_between_files (fun _ => 0) ["a.jpg", "b.jpg"] 1 (by decide)⟩

/-- Claim C4, counterexample: moving `img.jpg` when
`annotated/images/img.jpg` already exists (content 2) does not fail with
`DestinationExists`: the rename silently replaces the destination with the
source's content 1, the source entry is gone, and the pair is counted as
moved. -/
theorem move_overwrites_existing_destination :
    moveAnnotatedPair
        [("source/img.jpg", 1), ("annotated/images/img.jpg", 2), ("labels/img.txt", 3)]
        "source/img.jpg" "annotated/images/img.jpg"
        "labels/img.txt" "annotated/labels/img.txt" 0 =
      ⟨[("annotated/labels/img.txt", 3), ("annotated/images/img.jpg", 1)], 1⟩ ∧
    fsLookup [("source/img.jpg", 1), ("annotated/images/img.jpg", 2), ("labels/img.txt", 3)]
        "annotated/images/img.jpg" = some 2 ∧
    fsLookup [("annotated/labels/img.txt", 3), ("annotated/images/img.jpg", 1)]
        "annotated/images/img.jpg" = some 1 :=
  ⟨by decide, by decide, by decide⟩

/-- Claim C4 (amended): `move_annotated_files` performs `Path.rename` with
no destination-existence check, so when the destination already exists the
move succeeds and the existing destination file is silently replaced by the
source's content (POSIX rename semantics); no `DestinationExists` failure
exists in the code. -/
theorem rename_replaces_destination (fs : List (String × ℕ)) (src dst : String)
    (c c' : ℕ) (hsrc : fsLookup fs src = some c) (hdst : fsLookup fs dst = some c') :
    pathRename fs src dst = Except.ok (fsSet (fsRemove fs src) dst c) ∧
    fsLookup (fsSet (fsRemove fs src) dst c) dst = some c := by
  constructor
  · simp [pathRename, hsrc]
  · simp [fsSet, fsLookup]

/-- Claim C4, witness: the overwriting rename instantiated on a two-file
filesystem with a colliding destination. -/
theorem rename_replaces_destination_witness :
    fsLookup [("a", 1), ("b", 2)] "a" = some 1 ∧
    fsLookup [("a", 1), ("b", 2)] "b" = some 2 ∧
    pathRename [("a", 1), ("b", 2)] "a" "b" = Except.ok [("b", 1)] ∧
    fsLookup [("b", 1)] "b" = some 1 :=
  ⟨by decide, by decide,
    (rename_replaces_destination [("a", 1), ("b", 2)] "a" "b" 1 2
      (by decide) (by decide)).1,
    (rename_replaces_destination [("a", 1), ("b", 2)] "a" "b" 1 2
      (by decide) (by decide)).2⟩

/-- Claim C8: an error leaves `main` only from configuration loading (config
file or model), both of which happen before any file is touched; once both
load, the run completes with one counts table per directory no matter which
per-file or per-frame failures occur inside, and the per-file fold continues
with the remaining files after any file's (always-total) analysis. -/
theorem batch_raises_only_config_errors (cfgSrc : Except ConfigError (ℕ → String))
    (mdlSrc : Except ConfigError Unit) (dirs : List (List FileInput)) :
    (∀ e, mainRun cfgSrc mdlSrc dirs = Except.error e →
      cfgSrc = Except.error e ∨ mdlSrc = Except.error e) ∧
    (∀ classNames, cfgSrc = Except.ok classNames → mdlSrc = Except.ok () →
      mainRun cfgSrc mdlSrc dirs =
        Except.ok (dirs.map (analyzeDirectory classNames))) ∧
    (∀ (classNames : ℕ → String) (l₁ l₂ : List FileInput),
      analyzeDirectoryRaw classNames (l₁ ++ l₂) =
        l₂.foldl (fun acc f => addCounts acc (analyzeFileWithYolo classNames f))
          (analyzeDirectoryRaw classNames l₁)) := by
  refine ⟨?_, ?_, ?_⟩
  · intro e he
    cases cfgSrc with
    | error e' =>
        simp only [mainRun, Except.error.injEq] at he
        exact Or.inl (by rw [he])
    | ok classNames =>
        cases mdlSrc with
        | error e' =>
            simp only [mainRun, Except.error.injEq] at he
            exact Or.inr (by rw [he])
        | ok y => simp [mainRun] at he
  · intro classNames hcfg hmdl
    rw [hcfg, hmdl]
    rfl
  · intro classNames l₁ l₂
    simp [analyzeDirectoryRaw, List.foldl_append]

/-- Claim C8, witness: with a loaded configuration and model, a directory
whose first file fails in the detector still yields a completed batch whose
counts come from the remaining file. -/
theorem batch_raises_only_config_errors_witness :
    mainRun (Except.ok (fun _ => "Wolf")) (Except.ok ())
        [[FileInput.image (Except.error ()), FileInput.image (Except.ok [⟨9/10, 0⟩])]] =
      Except.ok
        ([[FileInput.image (Except.error ()), FileInput.image (Except.ok [⟨9/10, 0⟩])]].map
          (analyzeDirectory (fun _ => "Wolf"))) ∧
    analyzeDirectory (fun _ => "Wolf")
        [FileInput.image (Except.error ()), FileInput.image (Except.ok [⟨9/10, 0⟩])] =
      [("Wolf", 1)] :=
  ⟨(batch_raises_only_config_errors (Except.ok (fun _ => "Wolf")) (Except.ok ())
      [[FileInput.image (Except.error ()), FileInput.image (Except.ok [⟨9/10, 0⟩])]]).2.1
      (fun _ => "Wolf") rfl rfl,
    by decide⟩

/-- Claim C9: the GUI worker's per-file classification is not a function of
the file's content — `process_with_yolo` falls back to the simulation, whose
label is a weighted random draw — so two runs over the identical input list
can classify the same file differently (here `Wolf` under one draw stream
and `Fox` under another). -/
theorem simulated_classification_nondeterministic :
    processWithYolo = simulateProcessing ∧
    ∃ u₁ u₂ : ℕ → ℚ,
      (simulateProcessing u₁ none ["trail_cam_002.jpg"]).1.map
          (fun r => r.classification) = ["Wolf"] ∧
      (simulateProcessing u₂ none ["trail_cam_002.jpg"]).1.map
          (fun r => r.classification) = ["Fox"] ∧
      ("Wolf" : String) ≠ "Fox" :=
  ⟨rfl, fun _ => 0, fun _ => 1/2, by decide, by decide, by decide⟩

end WolfVue
